import Mathlib

/-!
Verification of the realtime-stems-mixer core against its specification.

The definitions below are a shallow embedding of the Python sources
`tsp_autodj.py` (compatibility model, distance matrix, TSP solver) and
`tsp_autodj_player.py` (AudioMixer crossfade engine).  Python floats are
modelled as rationals `ℚ`; the only transcendental step in the sources,
the `np.tanh` soft limiter applied at the very end of the render path, is
modelled over `ℝ` as a separate final stage so that everything before it
stays computable.
-/

/-- Embeds the `SongMetadata` dataclass of `tsp_autodj.py` (fields in source
order; `bpm`, `energy`, `duration` are Python floats, modelled as `ℚ`). -/
structure SongMetadata where
  path : String
  name : String
  bpm : ℚ
  key : String
  energy : ℚ
  duration : ℚ
deriving DecidableEq, Inhabited

/-- The `CamelotWheel.WHEEL_POSITIONS` dictionary: Camelot code to position. -/
def CamelotWheel.WHEEL_POSITIONS : List (String × ℕ) :=
  [("1A", 0), ("1B", 1), ("2A", 2), ("2B", 3), ("3A", 4), ("3B", 5),
   ("4A", 6), ("4B", 7), ("5A", 8), ("5B", 9), ("6A", 10), ("6B", 11),
   ("7A", 12), ("7B", 13), ("8A", 14), ("8B", 15), ("9A", 16), ("9B", 17),
   ("10A", 18), ("10B", 19), ("11A", 20), ("11B", 21), ("12A", 22), ("12B", 23)]

/-- Dictionary lookup `WHEEL_POSITIONS[key]` (`none` models a missing key). -/
def CamelotWheel.lookupPos (key : String) : Option ℕ :=
  CamelotWheel.WHEEL_POSITIONS.lookup key

/-- Embeds `CamelotWheel.key_distance` of `tsp_autodj.py` (lines 46-79):
equal keys give 0, unknown keys give 1, otherwise circular distance on the
circle of fifths normalized by 6 plus a 0.2 penalty for differing A/B sides,
capped at 1. -/
def CamelotWheel.key_distance (key1 key2 : String) : ℚ :=
  if key1 = key2 then 0
  else
    match CamelotWheel.lookupPos key1, CamelotWheel.lookupPos key2 with
    | some pos1, some pos2 =>
      let circle_pos1 : ℤ := (pos1 : ℤ) / 2
      let circle_pos2 : ℤ := (pos2 : ℤ) / 2
      let circle_dist : ℤ := min |circle_pos1 - circle_pos2| (12 - |circle_pos1 - circle_pos2|)
      let side_penalty : ℚ := if (pos1 % 2) ≠ (pos2 % 2) then 1/5 else 0
      min ((circle_dist : ℚ) / 6 + side_penalty) 1
    | _, _ => 1

/-- The fixed list `harmonic_ratios = [2.0, 1.5, 4/3, 3/4, 2/3, 0.5]` of
`BPMDistance.bpm_distance`. -/
def BPMDistance.harmonic_ratios : List ℚ := [2, 3/2, 4/3, 3/4, 2/3, 1/2]

/-- Embeds `BPMDistance.bpm_distance` of `tsp_autodj.py` (lines 127-154).
The Python default `harmonic_threshold = 0.08` is passed explicitly as
`2/25` by the callers modelled below. -/
def BPMDistance.bpm_distance (bpm1 bpm2 : ℚ) (harmonic_threshold : ℚ) : ℚ :=
  if bpm1 = 0 ∨ bpm2 = 0 then 1
  else
    let ratio := max bpm1 bpm2 / min bpm1 bpm2
    if ratio - 1 ≤ harmonic_threshold then (ratio - 1) / harmonic_threshold
    else
      BPMDistance.harmonic_ratios.foldl
        (fun best_distance target_ratio =>
          let actual_ratio := bpm1 / bpm2
          let ratio_error := |actual_ratio - target_ratio| / target_ratio
          if ratio_error ≤ harmonic_threshold then
            min best_distance (ratio_error / harmonic_threshold)
          else best_distance) 1

/-- The inlined energy sub-distance of `TSPSolver._calculate_distance`
(lines 313-314): `min(|e1 - e2| / 0.1, 1.0)`. -/
def TSPSolver.energy_distance (e1 e2 : ℚ) : ℚ :=
  min (|e1 - e2| / (1/10)) 1

/-- Embeds `TSPSolver._calculate_distance` (lines 303-323): the weighted
composite `0.5*key + 0.35*bpm + 0.15*energy`. -/
def TSPSolver.calculate_distance (song1 song2 : SongMetadata) : ℚ :=
  let key_dist := CamelotWheel.key_distance song1.key song2.key
  let bpm_dist := BPMDistance.bpm_distance song1.bpm song2.bpm (2/25)
  let energy_dist := TSPSolver.energy_distance song1.energy song2.energy
  key_dist * (1/2) + bpm_dist * (7/20) + energy_dist * (3/20)

/-- Embeds `TSPSolver._build_distance_matrix` (lines 288-301) as a function
of the two indices: `0` on the diagonal, `_calculate_distance` off it.
Only indices below `songs.length` correspond to actual matrix entries. -/
def TSPSolver.distance_matrix (songs : List SongMetadata) (i j : ℕ) : ℚ :=
  if i = j then 0
  else TSPSolver.calculate_distance (songs.getD i default) (songs.getD j default)

/-- One scan of the inner `for next_song in unvisited` loop of
`TSPSolver.solve_nearest_neighbor` (lines 334-347): starting from the first
unvisited index, keep the index of strictly smaller distance.  `none` is
returned exactly when `unvisited` is empty (in the source the loop body is
then never entered and the `while` loop exits). -/
def TSPSolver.select_nearest (dist : ℕ → ℚ) : List ℕ → Option ℕ
  | [] => none
  | x :: xs => some (xs.foldl (fun nearest y => if dist y < dist nearest then y else nearest) x)

/-- The `while unvisited:` loop of `TSPSolver.solve_nearest_neighbor`.  The
`fuel` argument is a structural bound on the number of iterations; callers
pass `unvisited.length`, which is exact since every iteration removes the
chosen index. -/
def TSPSolver.nn_loop (d : ℕ → ℕ → ℚ) : ℕ → ℕ → List ℕ → List ℕ
  | 0, _, _ => []
  | fuel + 1, current, unvisited =>
    match TSPSolver.select_nearest (d current) unvisited with
    | none => []
    | some nearest => nearest :: TSPSolver.nn_loop d fuel nearest (unvisited.erase nearest)

/-- Embeds `TSPSolver.solve_nearest_neighbor` (lines 325-349): the tour is
the start index followed by repeatedly appending the unvisited index nearest
to the current tour end.  `d` models `self.distance_matrix`, `n` models
`self.n`. -/
def TSPSolver.solve_nearest_neighbor (d : ℕ → ℕ → ℚ) (n start_index : ℕ) : List ℕ :=
  let unvisited := (List.range n).erase start_index
  start_index :: TSPSolver.nn_loop d unvisited.length start_index unvisited

/-- Embeds `TSPSolver._calculate_tour_distance` (lines 387-393): the cyclic
tour cost, the last edge wrapping back to the first element. -/
def TSPSolver.calculate_tour_distance (d : ℕ → ℕ → ℚ) (tour : List ℕ) : ℚ :=
  ((List.range tour.length).map
    (fun i => d (tour.getD i 0) (tour.getD ((i + 1) % tour.length) 0))).sum

/-- `new_tour[i:j] = reversed(new_tour[i:j])` of `improve_2opt`
(lines 366-367): reverse the slice `[i, j)` of the tour. -/
def TSPSolver.reverse_segment (tour : List ℕ) (i j : ℕ) : List ℕ :=
  tour.take i ++ ((tour.drop i).take (j - i)).reverse ++ tour.drop j

/-- The candidate pairs scanned by one pass of `improve_2opt` (lines
361-363), in scan order: `i` in `range(1, len-2)`, `j` in `range(i+1, len)`,
skipping `j - i == 1`. -/
def TSPSolver.candidate_pairs (len : ℕ) : List (ℕ × ℕ) :=
  (List.range' 1 (len - 3)).flatMap
    (fun i => ((List.range' (i + 1) (len - (i + 1))).filter (fun j => j ≠ i + 1)).map
      (fun j => (i, j)))

/-- One double scan of `improve_2opt` (lines 360-379): the first candidate
reversal whose cyclic distance is strictly below the current tour's (the
source compares against `best_distance`, which always equals the current
tour's distance when a scan starts), or `none` if a full scan finds no
improvement. -/
def TSPSolver.find_improvement (d : ℕ → ℕ → ℚ) (tour : List ℕ) : Option (List ℕ) :=
  ((TSPSolver.candidate_pairs tour.length).map
      (fun p => TSPSolver.reverse_segment tour p.1 p.2)).find?
    (fun t => TSPSolver.calculate_tour_distance d t < TSPSolver.calculate_tour_distance d tour)

/-- The `for iteration in range(max_iterations)` loop of `improve_2opt`:
after each accepted first improvement the double scan restarts; the loop
stops at a scan with no improvement or when the iteration cap is hit,
returning the current best tour. -/
def TSPSolver.two_opt_loop (d : ℕ → ℕ → ℚ) : ℕ → List ℕ → List ℕ
  | 0, tour => tour
  | fuel + 1, tour =>
    match TSPSolver.find_improvement d tour with
    | none => tour
    | some better => TSPSolver.two_opt_loop d fuel better

/-- Embeds `TSPSolver.improve_2opt` (lines 351-385) with the source's
default `max_iterations = 1000`. -/
def TSPSolver.improve_2opt (d : ℕ → ℕ → ℚ) (tour : List ℕ) : List ℕ :=
  TSPSolver.two_opt_loop d 1000 tour

/-- Embeds `TSPSolver.solve` (lines 395-420): trivial tour for `n ≤ 1`,
otherwise nearest-neighbor plus 2-opt from up to 5 starting points, keeping
the tour of strictly smallest cyclic distance (earliest on ties, matching
the source's `<` comparison against the best so far). -/
def TSPSolver.solve (songs : List SongMetadata) : List ℕ :=
  let n := songs.length
  let d := TSPSolver.distance_matrix songs
  if n ≤ 1 then List.range n
  else
    let start_points := List.range (min 5 n)
    let tours := start_points.map
      (fun s => TSPSolver.improve_2opt d (TSPSolver.solve_nearest_neighbor d n s))
    match tours with
    | [] => []
    | t :: ts =>
      ts.foldl
        (fun best_tour tour =>
          if TSPSolver.calculate_tour_distance d tour <
              TSPSolver.calculate_tour_distance d best_tour then tour
          else best_tour) t

/-- A stereo frame: one sample per channel, a row of the numpy
`(samples, 2)` arrays of `tsp_autodj_player.py`. -/
abbrev Frame : Type := ℚ × ℚ

/-- The mutable state of `AudioMixer` (`tsp_autodj_player.py`, lines 21-40):
audio buffers are lists of stereo frames. -/
structure AudioMixerState where
  sample_rate : ℕ
  chunk_size : ℕ
  current_audio : Option (List Frame)
  next_audio : Option (List Frame)
  crossfade_samples : ℕ
  current_position : ℕ
  is_crossfading : Bool
  crossfade_position : ℕ
  master_volume : ℚ
  is_playing : Bool
deriving DecidableEq

/-- The state built by `AudioMixer.__init__` with the default
`sample_rate = 44100`, `chunk_size = 1024`: no buffers, 4-second crossfade
window, master volume `0.8`, not playing. -/
def AudioMixer.init : AudioMixerState :=
  { sample_rate := 44100
    chunk_size := 1024
    current_audio := none
    next_audio := none
    crossfade_samples := 44100 * 4
    current_position := 0
    is_crossfading := false
    crossfade_position := 0
    master_volume := 4/5
    is_playing := false }

/-- Scale one stereo frame by a gain, the per-element effect of
`output *= self.master_volume`. -/
def AudioMixer.scaleFrame (volume : ℚ) (p : Frame) : Frame :=
  (p.1 * volume, p.2 * volume)

/-- The guarded read of `samples_needed` frames from an optional buffer at
a position, used for both `current_chunk` (lines 105-109, at the read
cursor) and `next_chunk` (lines 112-115, at position 0): a fully in-range
slice is returned, any other case leaves the chunk all-zero. -/
def AudioMixer.chunk_of (buf : Option (List Frame)) (pos samples_needed : ℕ) : List Frame :=
  match buf with
  | some b =>
    if pos + samples_needed ≤ b.length then (b.drop pos).take samples_needed
    else List.replicate samples_needed ((0 : ℚ), (0 : ℚ))
  | none => List.replicate samples_needed ((0 : ℚ), (0 : ℚ))

/-- One sub-chunk of the crossfade loop (lines 99-118): both chunks are
weighted by the fade progress computed once per sub-chunk from the
crossfade cursor at the chunk start, `current * (1 - p) + next * p`. -/
def AudioMixer.mix_chunk (s : AudioMixerState) (samples_needed : ℕ) : List Frame :=
  let fade_progress : ℚ := (s.crossfade_position : ℚ) / (s.crossfade_samples : ℚ)
  List.zipWith
    (fun c n => (c.1 * (1 - fade_progress) + n.1 * fade_progress,
                 c.2 * (1 - fade_progress) + n.2 * fade_progress))
    (AudioMixer.chunk_of s.current_audio s.current_position samples_needed)
    (AudioMixer.chunk_of s.next_audio 0 samples_needed)

/-- The crossfade-complete switch of `_generate_audio_chunk` (lines
126-134): promote `next_audio` to current, clear it, set the read cursor to
the final sub-chunk size just consumed (the source first advances both
cursors by `samples_needed` and then overwrites them here), and leave the
crossfading state. -/
def AudioMixer.swap_state (s : AudioMixerState) (samples_needed : ℕ) : AudioMixerState :=
  { s with current_audio := s.next_audio
           next_audio := none
           current_position := samples_needed
           is_crossfading := false
           crossfade_position := 0 }

/-- The `while samples_generated < frame_count` crossfade loop of
`_generate_audio_chunk` (lines 90-134), producing the raw (pre-volume)
frames it writes into `output` plus the zero frames left wherever the loop
breaks early.  `remaining` is `frame_count - samples_generated`; the extra
`fuel` argument is a structural iteration bound, exact when callers pass
`remaining` itself since every iteration consumes at least one frame. -/
def AudioMixer.crossfade_loop : ℕ → AudioMixerState → ℕ → List Frame × AudioMixerState
  | 0, s, remaining => (List.replicate remaining ((0 : ℚ), (0 : ℚ)), s)
  | fuel + 1, s, remaining =>
    if remaining = 0 then ([], s)
    else
      let samples_needed := min remaining (s.crossfade_samples - s.crossfade_position)
      if samples_needed = 0 then (List.replicate remaining ((0 : ℚ), (0 : ℚ)), s)
      else
        let mixed_chunk := AudioMixer.mix_chunk s samples_needed
        if s.crossfade_samples ≤ s.crossfade_position + samples_needed then
          -- crossfade complete: swap buffers and break out of the loop
          (mixed_chunk ++ List.replicate (remaining - samples_needed) ((0 : ℚ), (0 : ℚ)),
           AudioMixer.swap_state s samples_needed)
        else
          let s1 := { s with current_position := s.current_position + samples_needed,
                             crossfade_position := s.crossfade_position + samples_needed }
          let rest := AudioMixer.crossfade_loop fuel s1 (remaining - samples_needed)
          (mixed_chunk ++ rest.1, rest.2)

/-- Embeds `AudioMixer._generate_audio_chunk` (lines 72-142), up to but not
including the final `np.tanh` soft limiter: the returned frames are the
`output` array just after `output *= self.master_volume`.

In the non-crossfading branch with enough samples left, the source's
`output` is a numpy *view* of `current_audio`, so `output *= master_volume`
also scales the stored slice `[position, position + frame_count)` of the
current buffer in place; the returned state reflects that.  (The later
`output = np.tanh(...)` allocates a fresh array and does not write back.)
In the non-crossfading branch with `current_audio = None` the source raises
`TypeError` at `len(self.current_audio)`; `_audio_callback` catches it and
plays silence with the state untouched, which is modelled directly here. -/
def AudioMixer.generate_audio_chunk_pre (s : AudioMixerState) (frame_count : ℕ) :
    List Frame × AudioMixerState :=
  if s.is_crossfading then
    let res := AudioMixer.crossfade_loop frame_count s frame_count
    (res.1.map (AudioMixer.scaleFrame s.master_volume), res.2)
  else
    match s.current_audio with
    | none => (List.replicate frame_count ((0 : ℚ), (0 : ℚ)), s)
    | some cur =>
      if s.current_position + frame_count < cur.length then
        let scaled_slice := ((cur.drop s.current_position).take frame_count).map
          (AudioMixer.scaleFrame s.master_volume)
        (scaled_slice,
         { s with
             current_audio := some (cur.take s.current_position ++ scaled_slice ++
               cur.drop (s.current_position + frame_count))
             current_position := s.current_position + frame_count })
      else
        let raw := cur.drop s.current_position ++
          List.replicate (frame_count - (cur.length - s.current_position)) ((0 : ℚ), (0 : ℚ))
        (raw.map (AudioMixer.scaleFrame s.master_volume),
         { s with current_position := cur.length })

/-- The final `np.tanh(output * 0.95) * 0.95` soft limiter of
`_generate_audio_chunk` (line 140), applied per sample; the only
transcendental step of the render path, modelled over `ℝ`. -/
noncomputable def AudioMixer.soft_limit (x : ℚ) : ℝ :=
  Real.tanh ((x : ℝ) * (19/20)) * (19/20)

/-- The soft limiter applied to a stereo frame. -/
noncomputable def AudioMixer.limitFrame (p : Frame) : ℝ × ℝ :=
  (AudioMixer.soft_limit p.1, AudioMixer.soft_limit p.2)

/-- Embeds `AudioMixer._audio_callback` (lines 58-70) for a request of
`frame_count` frames: silence (state untouched) when not playing or no
current buffer, otherwise the full `_generate_audio_chunk` pipeline
(mix, master volume, soft limiter). -/
noncomputable def AudioMixer.render (s : AudioMixerState) (frame_count : ℕ) :
    List (ℝ × ℝ) × AudioMixerState :=
  if s.is_playing = false ∨ s.current_audio = none then
    (List.replicate frame_count ((0 : ℝ), (0 : ℝ)), s)
  else
    let res := AudioMixer.generate_audio_chunk_pre s frame_count
    (res.1.map AudioMixer.limitFrame, res.2)

/-- Embeds `AudioMixer.play_song` (lines 198-209).  Loading the stem files
is external I/O; its result is passed in as `loaded` (`none` models a
failed `load_song_stems`, in which case the source returns `False` with the
state untouched). -/
def AudioMixer.play_song (s : AudioMixerState) (loaded : Option (List Frame)) :
    Bool × AudioMixerState :=
  match loaded with
  | none => (false, s)
  | some audio =>
    (true, { s with current_audio := some audio, current_position := 0, is_playing := true })

/-- Embeds `AudioMixer.prepare_next_song` (lines 211-217) on a successfully
loaded buffer: stage it as `next_audio`. -/
def AudioMixer.prepare_next_song (s : AudioMixerState) (audio : List Frame) :
    AudioMixerState :=
  { s with next_audio := some audio }

/-- Embeds `AudioMixer.start_crossfade` (lines 219-227): no-op returning
`False` when no next buffer is staged, otherwise reset the crossfade cursor
and enter the crossfading state. -/
def AudioMixer.start_crossfade (s : AudioMixerState) : Bool × AudioMixerState :=
  match s.next_audio with
  | some _ => (true, { s with is_crossfading := true, crossfade_position := 0 })
  | none => (false, s)

/-- Embeds `TSPAutoDJPlayer._calculate_song_compatibility`
(`tsp_autodj_player.py`, lines 364-380): the complement-view score used to
time crossfades, with its energy term `max(0, 1 - diff/0.2)` and the final
clamp to `[0, 1]`. -/
def TSPAutoDJPlayer.calculate_song_compatibility (song1 song2 : SongMetadata) : ℚ :=
  let key_score := 1 - CamelotWheel.key_distance song1.key song2.key
  let bpm_score := 1 - BPMDistance.bpm_distance song1.bpm song2.bpm (2/25)
  let energy_diff := |song1.energy - song2.energy|
  let energy_score := max 0 (1 - energy_diff / (1/5))
  max 0 (min 1 (key_score * (1/2) + bpm_score * (7/20) + energy_score * (3/20)))

/-- Two-song witness list for the distance-matrix symmetry analysis:
identical keys and energies, tempos 100 and 205 (whose ratio 2.05 is within
harmonic tolerance of 2:1 in one direction and of 1:2 in the other, with
different relative errors). -/
def c2_song_a : SongMetadata :=
  { path := "a", name := "a", bpm := 100, key := "1A", energy := 0, duration := 0 }

/-- Second song of the symmetry counterexample pair. -/
def c2_song_b : SongMetadata :=
  { path := "b", name := "b", bpm := 205, key := "1A", energy := 0, duration := 0 }

/-- First song of the compatibility-formula counterexample pair: the two
songs differ only in energy, by exactly `0.1`. -/
def c7_song_a : SongMetadata :=
  { path := "a", name := "a", bpm := 120, key := "1A", energy := 0, duration := 0 }

/-- Second song of the compatibility-formula counterexample pair. -/
def c7_song_b : SongMetadata :=
  { path := "b", name := "b", bpm := 120, key := "1A", energy := 1/10, duration := 0 }

/-- A mid-crossfade state with a staged next buffer, used to exhibit what
`play_song` does and does not reset. -/
def c8_state : AudioMixerState :=
  { AudioMixer.init with
      is_playing := true
      current_audio := some [(1, 1)]
      next_audio := some [(2, 2)]
      is_crossfading := true
      crossfade_position := 7 }

/-- A playing, non-crossfading state over a three-frame buffer, read cursor
at 0, used to instantiate the in-place scaling theorem. -/
def c10_buf : List Frame := [((1:ℚ), (1:ℚ)), ((2:ℚ), (2:ℚ)), ((3:ℚ), (3:ℚ))]

/-- The concrete playing state over `c10_buf`. -/
def c10_state : AudioMixerState :=
  { AudioMixer.init with
      is_playing := true
      current_audio := some c10_buf }

/-- A mid-crossfade state (window 4, cursor 2) over concrete buffers, used
to instantiate the partial-completion theorem with a 5-frame request. -/
def c9_state : AudioMixerState :=
  { AudioMixer.init with
      is_playing := true
      current_audio := some (List.replicate 10 ((1:ℚ), (1:ℚ)))
      next_audio := some (List.replicate 8 ((2:ℚ), (2:ℚ)))
      is_crossfading := true
      crossfade_samples := 4
      crossfade_position := 2 }

/-- The crossfade scenario of the spec: an all-ones current buffer, an
all-zero staged next buffer, a 100-sample crossfade window (the other
fields are the source defaults: master volume `0.8`, cursors at 0). -/
def c6_state0 : AudioMixerState :=
  { AudioMixer.init with
      is_playing := true
      current_audio := some (List.replicate 200 ((1:ℚ), (1:ℚ)))
      next_audio := some (List.replicate 150 ((0:ℚ), (0:ℚ)))
      crossfade_samples := 100 }

/-- The scenario state after `start_crossfade` succeeds. -/
def c6_state1 : AudioMixerState := (AudioMixer.start_crossfade c6_state0).2

/-! ## Helper lemmas -/

/-- A fold that at each step keeps either the accumulator or the new element
ends on one of them. -/
theorem foldl_choice_mem {α : Type} (g : α → α → α)
    (hg : ∀ b y, g b y = b ∨ g b y = y) :
    ∀ (xs : List α) (b : α), xs.foldl g b ∈ b :: xs := by
  intro xs
  induction xs with
  | nil => intro b; simp
  | cons y ys ih =>
    intro b
    simp only [List.foldl_cons]
    rcases hg b y with h | h <;> rw [h]
    · rcases List.mem_cons.mp (ih b) with h1 | h1
      · simp [h1]
      · exact List.mem_cons_of_mem _ (List.mem_cons_of_mem _ h1)
    · exact List.mem_cons_of_mem _ (ih y)

/-- The nearest-unvisited scan returns a member of the unvisited list. -/
theorem select_nearest_mem {dist : ℕ → ℚ} {l : List ℕ} {x : ℕ}
    (h : TSPSolver.select_nearest dist l = some x) : x ∈ l := by
  cases l with
  | nil => simp [TSPSolver.select_nearest] at h
  | cons a as =>
    simp only [TSPSolver.select_nearest, Option.some.injEq] at h
    rw [← h]
    exact foldl_choice_mem _
      (fun b y => by by_cases hc : dist y < dist b <;> simp [hc]) as a

/-- The nearest-neighbor loop visits exactly the unvisited indices, in some
order, when the fuel covers the number of unvisited indices. -/
theorem nn_loop_perm (d : ℕ → ℕ → ℚ) :
    ∀ (fuel current : ℕ) (unvisited : List ℕ),
      unvisited.length ≤ fuel →
      (TSPSolver.nn_loop d fuel current unvisited).Perm unvisited := by
  intro fuel
  induction fuel with
  | zero =>
    intro c u h
    have hu : u = [] := List.length_eq_zero.mp (Nat.le_zero.mp h)
    subst hu
    simp [TSPSolver.nn_loop]
  | succ n ih =>
    intro c u h
    rw [TSPSolver.nn_loop]
    cases hsel : TSPSolver.select_nearest (d c) u with
    | none =>
      cases u with
      | nil => simp
      | cons a as => simp [TSPSolver.select_nearest] at hsel
    | some x =>
      have hx : x ∈ u := select_nearest_mem hsel
      have hlen : (u.erase x).length ≤ n := by
        have := List.length_erase_add_one hx
        omega
      exact ((ih x (u.erase x) hlen).cons x).trans (List.perm_cons_erase hx).symm

/-- The nearest-neighbor tour from an in-range start index is a permutation
of `0..n-1`. -/
theorem solve_nearest_neighbor_perm (d : ℕ → ℕ → ℚ) {n start_index : ℕ}
    (h : start_index < n) :
    (TSPSolver.solve_nearest_neighbor d n start_index).Perm (List.range n) := by
  have hmem : start_index ∈ List.range n := List.mem_range.mpr h
  have h1 := nn_loop_perm d ((List.range n).erase start_index).length start_index
    ((List.range n).erase start_index) le_rfl
  exact (h1.cons start_index).trans (List.perm_cons_erase hmem).symm

/-- Reversing an inner slice of a tour permutes it. -/
theorem reverse_segment_perm (tour : List ℕ) {i j : ℕ} (hij : i ≤ j) :
    (TSPSolver.reverse_segment tour i j).Perm tour := by
  unfold TSPSolver.reverse_segment
  rw [List.append_assoc]
  conv_rhs => rw [← List.take_append_drop i tour]
  refine List.Perm.append_left _ ?_
  have h2 : (tour.drop i).drop (j - i) = tour.drop j := by
    rw [List.drop_drop]
    congr 1
    omega
  have key : (tour.drop i).take (j - i) ++ tour.drop j = tour.drop i := by
    rw [← h2]
    exact List.take_append_drop _ _
  have h3 : (((tour.drop i).take (j - i)).reverse ++ tour.drop j).Perm
      ((tour.drop i).take (j - i) ++ tour.drop j) :=
    List.Perm.append_right _ (List.reverse_perm _)
  rw [key] at h3
  exact h3

/-- Every scanned 2-opt pair has its first index at most the second. -/
theorem candidate_pairs_le {len i j : ℕ}
    (h : (i, j) ∈ TSPSolver.candidate_pairs len) : i ≤ j := by
  unfold TSPSolver.candidate_pairs at h
  simp only [List.mem_flatMap, List.mem_map, List.mem_filter,
    List.mem_range'_1] at h
  obtain ⟨a, _, j', ⟨⟨ha1, _⟩, _⟩, heq⟩ := h
  obtain ⟨rfl, rfl⟩ := Prod.mk.injEq .. ▸ heq
  omega

/-- An accepted 2-opt improvement is a permutation of the scanned tour. -/
theorem find_improvement_perm {d : ℕ → ℕ → ℚ} {tour better : List ℕ}
    (h : TSPSolver.find_improvement d tour = some better) : better.Perm tour := by
  unfold TSPSolver.find_improvement at h
  have hmem := List.mem_of_find?_eq_some h
  simp only [List.mem_map] at hmem
  obtain ⟨⟨i, j⟩, hp, rfl⟩ := hmem
  exact reverse_segment_perm tour (candidate_pairs_le hp)

/-- An accepted 2-opt improvement strictly decreases the cyclic distance. -/
theorem find_improvement_lt {d : ℕ → ℕ → ℚ} {tour better : List ℕ}
    (h : TSPSolver.find_improvement d tour = some better) :
    TSPSolver.calculate_tour_distance d better <
      TSPSolver.calculate_tour_distance d tour := by
  unfold TSPSolver.find_improvement at h
  have := List.find?_some h
  simpa using this

/-- The 2-opt loop permutes its input tour. -/
theorem two_opt_loop_perm (d : ℕ → ℕ → ℚ) :
    ∀ (fuel : ℕ) (tour : List ℕ),
      (TSPSolver.two_opt_loop d fuel tour).Perm tour := by
  intro fuel
  induction fuel with
  | zero => intro t; simp [TSPSolver.two_opt_loop]
  | succ n ih =>
    intro t
    rw [TSPSolver.two_opt_loop]
    cases h : TSPSolver.find_improvement d t with
    | none => exact List.Perm.refl _
    | some b => exact (ih b).trans (find_improvement_perm h)

/-- The 2-opt loop never increases the cyclic distance. -/
theorem two_opt_loop_le (d : ℕ → ℕ → ℚ) :
    ∀ (fuel : ℕ) (tour : List ℕ),
      TSPSolver.calculate_tour_distance d (TSPSolver.two_opt_loop d fuel tour) ≤
        TSPSolver.calculate_tour_distance d tour := by
  intro fuel
  induction fuel with
  | zero => intro t; simp [TSPSolver.two_opt_loop]
  | succ n ih =>
    intro t
    rw [TSPSolver.two_opt_loop]
    cases h : TSPSolver.find_improvement d t with
    | none => exact le_refl _
    | some b => exact le_trans (ih b) (le_of_lt (find_improvement_lt h))

/-! ## Claim theorems: tour solver -/

/-- C4: for every distance function and every input tour, the tour returned
by `improve_2opt` has cyclic total distance at most that of the input tour
(in particular for the nearest-neighbor tour of every candidate start). -/
theorem improve_2opt_distance_le (d : ℕ → ℕ → ℚ) (tour : List ℕ) :
    TSPSolver.calculate_tour_distance d (TSPSolver.improve_2opt d tour) ≤
      TSPSolver.calculate_tour_distance d tour :=
  two_opt_loop_le d 1000 tour

/-- C3: `TSPSolver.solve` returns a permutation of `0..N-1` (no duplicate,
no missing index) for every track list, and the trivial tour for `N ≤ 1`:
`[]` for zero tracks and `[0]` for one track. -/
theorem solve_returns_permutation (songs : List SongMetadata) :
    (TSPSolver.solve songs).Perm (List.range songs.length) ∧
    TSPSolver.solve [] = [] ∧
    (∀ song : SongMetadata, TSPSolver.solve [song] = [0]) := by
  refine ⟨?_, rfl, fun song => rfl⟩
  by_cases h : songs.length ≤ 1
  · simp [TSPSolver.solve, h]
  · have h2 : 2 ≤ songs.length := by omega
    cases htours : (List.range (min 5 songs.length)).map
        (fun s => TSPSolver.improve_2opt (TSPSolver.distance_matrix songs)
          (TSPSolver.solve_nearest_neighbor (TSPSolver.distance_matrix songs)
            songs.length s)) with
    | nil =>
      exfalso
      have hmin : min 5 songs.length = 0 := by
        simpa using congrArg List.length htours
      omega
    | cons t ts =>
      have hres : TSPSolver.solve songs = ts.foldl
          (fun best_tour tour =>
            if TSPSolver.calculate_tour_distance (TSPSolver.distance_matrix songs) tour <
                TSPSolver.calculate_tour_distance (TSPSolver.distance_matrix songs) best_tour
            then tour else best_tour) t := by
        simp only [TSPSolver.solve, if_neg h, htours]
      have hall : ∀ x ∈ t :: ts, x.Perm (List.range songs.length) := by
        rw [← htours]
        intro x hx
        simp only [List.mem_map, List.mem_range] at hx
        obtain ⟨s, hs, rfl⟩ := hx
        have hsn : s < songs.length := lt_of_lt_of_le hs (min_le_right _ _)
        exact (two_opt_loop_perm _ 1000 _).trans
          (solve_nearest_neighbor_perm _ hsn)
      rw [hres]
      refine hall _ (foldl_choice_mem _ (fun b y => ?_) ts t)
      by_cases hc : TSPSolver.calculate_tour_distance (TSPSolver.distance_matrix songs) y <
          TSPSolver.calculate_tour_distance (TSPSolver.distance_matrix songs) b <;>
        simp [hc]

/-! ## Helper lemmas: bounds of the sub-distances -/

/-- A successful association-list lookup returns one of the stored values. -/
theorem lookup_mem_snd :
    ∀ (l : List (String × ℕ)) (k : String) (v : ℕ),
      l.lookup k = some v → v ∈ l.map Prod.snd := by
  intro l
  induction l with
  | nil => intro k v h; simp [List.lookup] at h
  | cons p ps ih =>
    intro k v h
    obtain ⟨a, b⟩ := p
    by_cases hk : (k == a) = true
    · simp only [List.lookup, hk, Option.some.injEq] at h
      simp [← h]
    · have hk' : (k == a) = false := by simpa using hk
      simp only [List.lookup, hk'] at h
      exact List.mem_cons_of_mem _ (ih k v h)

/-- Every Camelot wheel position is at most 23. -/
theorem lookupPos_le_23 {k : String} {p : ℕ}
    (h : CamelotWheel.lookupPos k = some p) : p ≤ 23 := by
  have hmem := lookup_mem_snd _ _ _ h
  simp [CamelotWheel.WHEEL_POSITIONS] at hmem
  omega

/-- The Camelot key distance is nonnegative. -/
theorem key_distance_nonneg (k1 k2 : String) :
    0 ≤ CamelotWheel.key_distance k1 k2 := by
  unfold CamelotWheel.key_distance
  split
  · exact le_refl 0
  cases h1 : CamelotWheel.lookupPos k1 with
  | none => simp [h1]
  | some p1 =>
    cases h2 : CamelotWheel.lookupPos k2 with
    | none => simp [h1, h2]
    | some p2 =>
      simp only [h1, h2]
      have hp1 : p1 ≤ 23 := lookupPos_le_23 h1
      have hp2 : p2 ≤ 23 := lookupPos_le_23 h2
      have hc1a : (0 : ℤ) ≤ (p1 : ℤ) / 2 := Int.ediv_nonneg (Int.ofNat_nonneg p1) (by norm_num)
      have hc2a : (0 : ℤ) ≤ (p2 : ℤ) / 2 := Int.ediv_nonneg (Int.ofNat_nonneg p2) (by norm_num)
      have hc1b : (p1 : ℤ) / 2 ≤ 11 := by
        have : (p1 : ℤ) ≤ 23 := by exact_mod_cast hp1
        omega
      have hc2b : (p2 : ℤ) / 2 ≤ 11 := by
        have : (p2 : ℤ) ≤ 23 := by exact_mod_cast hp2
        omega
      have habs : |(p1 : ℤ) / 2 - (p2 : ℤ) / 2| ≤ 11 := by
        rw [abs_le]
        omega
      have hcd : (0 : ℤ) ≤ min |(p1 : ℤ) / 2 - (p2 : ℤ) / 2| (12 - |(p1 : ℤ) / 2 - (p2 : ℤ) / 2|) := by
        have h0 : (0 : ℤ) ≤ |(p1 : ℤ) / 2 - (p2 : ℤ) / 2| := abs_nonneg _
        omega
      refine le_min ?_ (by norm_num)
      have hside : (0 : ℚ) ≤ if (p1 % 2) ≠ (p2 % 2) then 1/5 else 0 := by
        split <;> norm_num
      have hcast : (0 : ℚ) ≤
          ((min |(p1 : ℤ) / 2 - (p2 : ℤ) / 2| (12 - |(p1 : ℤ) / 2 - (p2 : ℤ) / 2|) : ℤ) : ℚ) := by
        exact_mod_cast hcd
      have := div_nonneg hcast (by norm_num : (0:ℚ) ≤ 6)
      linarith

/-- The Camelot key distance is at most 1. -/
theorem key_distance_le_one (k1 k2 : String) :
    CamelotWheel.key_distance k1 k2 ≤ 1 := by
  unfold CamelotWheel.key_distance
  split
  · norm_num
  cases h1 : CamelotWheel.lookupPos k1 with
  | none => simp [h1]
  | some p1 =>
    cases h2 : CamelotWheel.lookupPos k2 with
    | none => simp [h1, h2]
    | some p2 =>
      simp only [h1, h2]
      exact min_le_right _ _

/-- The harmonic-ratio fold of `bpm_distance` stays within `[0, 1]` when the
candidate ratios are positive and the threshold is nonnegative. -/
theorem bpm_fold_bounds (r th : ℚ) (hth : 0 ≤ th) :
    ∀ (l : List ℚ), (∀ t ∈ l, 0 < t) → ∀ acc : ℚ, 0 ≤ acc → acc ≤ 1 →
      0 ≤ l.foldl
          (fun best t => if |r - t| / t ≤ th then min best (|r - t| / t / th) else best) acc ∧
        l.foldl
          (fun best t => if |r - t| / t ≤ th then min best (|r - t| / t / th) else best) acc ≤ 1 := by
  intro l
  induction l with
  | nil => intro _ acc h0 h1; exact ⟨h0, h1⟩
  | cons t ts ih =>
    intro hpos acc h0 h1
    simp only [List.foldl_cons]
    have htpos : 0 < t := hpos t (List.mem_cons_self t ts)
    refine ih (fun u hu => hpos u (List.mem_cons_of_mem _ hu)) _ ?_ ?_
    · split
      · exact le_min h0 (div_nonneg (div_nonneg (abs_nonneg _) (le_of_lt htpos)) hth)
      · exact h0
    · split
      · exact le_trans (min_le_left _ _) h1
      · exact h1

/-- With positive tempos the BPM distance lies in `[0, 1]`. -/
theorem bpm_distance_bounds {b1 b2 : ℚ} (h1 : 0 < b1) (h2 : 0 < b2) :
    0 ≤ BPMDistance.bpm_distance b1 b2 (2/25) ∧
      BPMDistance.bpm_distance b1 b2 (2/25) ≤ 1 := by
  have hne : ¬ (b1 = 0 ∨ b2 = 0) := by
    push_neg
    exact ⟨ne_of_gt h1, ne_of_gt h2⟩
  rw [BPMDistance.bpm_distance, if_neg hne]
  simp only
  by_cases hd : max b1 b2 / min b1 b2 - 1 ≤ 2/25
  · rw [if_pos hd]
    have hminpos : 0 < min b1 b2 := lt_min h1 h2
    have hge : 1 ≤ max b1 b2 / min b1 b2 := (one_le_div hminpos).mpr (min_le_max)
    constructor
    · apply div_nonneg (by linarith) (by norm_num)
    · rw [div_le_one (by norm_num : (0:ℚ) < 2/25)]
      linarith
  · rw [if_neg hd]
    have hratios : ∀ t ∈ BPMDistance.harmonic_ratios, (0:ℚ) < t := by
      intro t ht
      simp [BPMDistance.harmonic_ratios] at ht
      rcases ht with rfl | rfl | rfl | rfl | rfl | rfl <;> norm_num
    exact bpm_fold_bounds (b1 / b2) (2/25) (by norm_num)
      BPMDistance.harmonic_ratios hratios 1 zero_le_one le_rfl

/-! ## Claim theorems: compatibility model and distance matrix -/

/-- C2 counterexample: the distance matrix of the two-song list
`[100 BPM, 205 BPM]` (equal keys and energies) is not symmetric: entry
`[0][1]` is `0.35 * 25/82` while entry `[1][0]` is `0.35 * 5/16`, because
`bpm_distance` measures the relative error of `bpm1/bpm2` against each
harmonic ratio asymmetrically. -/
theorem distance_matrix_not_symmetric :
    TSPSolver.distance_matrix [c2_song_a, c2_song_b] 0 1 ≠
      TSPSolver.distance_matrix [c2_song_a, c2_song_b] 1 0 := by
  norm_num [TSPSolver.distance_matrix, c2_song_a, c2_song_b,
    TSPSolver.calculate_distance, TSPSolver.energy_distance,
    CamelotWheel.key_distance, BPMDistance.bpm_distance,
    BPMDistance.harmonic_ratios, min_def, max_def, abs_eq_max_neg]

/-- C2 amended: the distance matrix has every diagonal entry equal to 0,
and the key and energy sub-distances are symmetric functions; the BPM
sub-distance (hence the matrix) is not symmetric in general. -/
theorem distance_matrix_diag_zero_and_subdistance_symm
    (songs : List SongMetadata) (i : ℕ) :
    TSPSolver.distance_matrix songs i i = 0 ∧
    (∀ k1 k2, CamelotWheel.key_distance k1 k2 = CamelotWheel.key_distance k2 k1) ∧
    (∀ e1 e2, TSPSolver.energy_distance e1 e2 = TSPSolver.energy_distance e2 e1) := by
  refine ⟨by simp [TSPSolver.distance_matrix], ?_, ?_⟩
  · intro k1 k2
    unfold CamelotWheel.key_distance
    by_cases h : k1 = k2
    · simp [h]
    · have h' : ¬ k2 = k1 := fun hh => h hh.symm
      rw [if_neg h, if_neg h']
      cases h1 : CamelotWheel.lookupPos k1 with
      | none => cases h2 : CamelotWheel.lookupPos k2 <;> rfl
      | some p1 =>
        cases h2 : CamelotWheel.lookupPos k2 with
        | none => rfl
        | some p2 =>
          dsimp only
          rw [abs_sub_comm]
          by_cases hmod : (p1 % 2 : ℕ) = p2 % 2
          · rw [if_neg (fun hh => hh hmod),
              if_neg (fun hh => hh hmod.symm)]
          · rw [if_pos hmod,
              if_pos (show (p2 % 2 : ℕ) ≠ p1 % 2 from fun hh => hmod hh.symm)]
  · intro e1 e2
    unfold TSPSolver.energy_distance
    rw [abs_sub_comm]

/-- C5 counterexample: `bpm_distance(100, 137)` is not `1.0`: the ratio
`100/137 ≈ 0.73` is within the `0.08` relative tolerance of the harmonic
ratio `3/4`, so the function returns `(11/411)/(2/25) = 275/822 ≈ 0.335`. -/
theorem bpm_distance_100_137_ne_one :
    BPMDistance.bpm_distance 100 137 (2/25) ≠ 1 := by
  norm_num [BPMDistance.bpm_distance, BPMDistance.harmonic_ratios,
    min_def, max_def, abs_eq_max_neg]

/-- C5 amended: `bpm_distance(120,120) = 0`; `bpm_distance(120,240) = 0`
(exact 2:1 harmonic match); `bpm_distance(120,121) = ((121/120)-1)/0.08`
(direct-tolerance branch); and `bpm_distance(100,137) = 275/822 ≈ 0.335`
(3/4 harmonic match within tolerance), not `1.0`. -/
theorem bpm_distance_spec_values :
    BPMDistance.bpm_distance 120 120 (2/25) = 0 ∧
    BPMDistance.bpm_distance 120 240 (2/25) = 0 ∧
    BPMDistance.bpm_distance 120 121 (2/25) = (121/120 - 1) / (2/25) ∧
    BPMDistance.bpm_distance 100 137 (2/25) = 275/822 := by
  refine ⟨?_, ?_, ?_, ?_⟩ <;>
    norm_num [BPMDistance.bpm_distance, BPMDistance.harmonic_ratios,
      min_def, max_def, abs_eq_max_neg]

/-- C7 counterexample: the crossfade-compatibility score does not equal
`0.5*(1-keyDistance) + 0.35*(1-bpmDistance) + 0.15*(1-energyDistance)` with
`energyDistance(e1,e2) = min(|e1-e2|/0.1, 1)`: on two songs with equal key
and tempo and energies `0` and `0.1` the source value is `0.925` (its energy
term divides by `0.2`) while the claimed formula gives `0.85`. -/
theorem song_compatibility_ne_claimed_formula :
    TSPAutoDJPlayer.calculate_song_compatibility c7_song_a c7_song_b ≠
      (1 - CamelotWheel.key_distance c7_song_a.key c7_song_b.key) * (1/2) +
      (1 - BPMDistance.bpm_distance c7_song_a.bpm c7_song_b.bpm (2/25)) * (7/20) +
      (1 - min (|c7_song_a.energy - c7_song_b.energy| / (1/10)) 1) * (3/20) := by
  norm_num [TSPAutoDJPlayer.calculate_song_compatibility, c7_song_a, c7_song_b,
    CamelotWheel.key_distance, BPMDistance.bpm_distance,
    BPMDistance.harmonic_ratios, min_def, max_def, abs_eq_max_neg]

/-- C7 amended: for tracks with positive tempos the crossfade-compatibility
score equals `0.5*(1-keyDistance) + 0.35*(1-bpmDistance) +
0.15*(1-energyDistance)` where `energyDistance(e1,e2) = min(|e1-e2|/0.2, 1)`
— the energy term divides by `0.2`, not `0.1` (and the source's final clamp
to `[0,1]` is the identity on such inputs). -/
theorem song_compatibility_formula {song1 song2 : SongMetadata}
    (h1 : 0 < song1.bpm) (h2 : 0 < song2.bpm) :
    TSPAutoDJPlayer.calculate_song_compatibility song1 song2 =
      (1 - CamelotWheel.key_distance song1.key song2.key) * (1/2) +
      (1 - BPMDistance.bpm_distance song1.bpm song2.bpm (2/25)) * (7/20) +
      (1 - min (|song1.energy - song2.energy| / (1/5)) 1) * (3/20) := by
  have hk0 := key_distance_nonneg song1.key song2.key
  have hk1 := key_distance_le_one song1.key song2.key
  obtain ⟨hb0, hb1⟩ := bpm_distance_bounds h1 h2
  simp only [TSPAutoDJPlayer.calculate_song_compatibility]
  have he : max 0 (1 - |song1.energy - song2.energy| / (1/5)) =
      1 - min (|song1.energy - song2.energy| / (1/5)) 1 := by
    rcases le_total (|song1.energy - song2.energy| / (1/5)) 1 with h | h
    · rw [min_eq_left h, max_eq_right (by linarith)]
    · rw [min_eq_right h, max_eq_left (by linarith)]
      norm_num
  rw [he]
  have hm0 : 0 ≤ min (|song1.energy - song2.energy| / (1/5)) 1 :=
    le_min (div_nonneg (abs_nonneg _) (by norm_num)) zero_le_one
  have hm1 : min (|song1.energy - song2.energy| / (1/5)) 1 ≤ 1 := min_le_right _ _
  rw [min_eq_right (by linarith), max_eq_right (by linarith)]

/-- C7 witness: the amended compatibility formula instantiated at the two
concrete songs of positive tempo 120. -/
theorem song_compatibility_formula_witness :
    TSPAutoDJPlayer.calculate_song_compatibility c7_song_a c7_song_b =
      (1 - CamelotWheel.key_distance c7_song_a.key c7_song_b.key) * (1/2) +
      (1 - BPMDistance.bpm_distance c7_song_a.bpm c7_song_b.bpm (2/25)) * (7/20) +
      (1 - min (|c7_song_a.energy - c7_song_b.energy| / (1/5)) 1) * (3/20) :=
  song_compatibility_formula (by norm_num [c7_song_a]) (by norm_num [c7_song_b])

/-! ## Claim theorems: crossfade engine -/

/-- C8 counterexample: after a successful `play_song` from a mid-crossfade
state with a staged next buffer, the staged buffer is NOT cleared and the
state is still crossfading — the source only replaces `current_audio`,
resets the cursor and sets `is_playing`. -/
theorem play_song_does_not_clear_next :
    ¬ ((AudioMixer.play_song c8_state (some [(3, 3)])).2.next_audio = none ∧
       (AudioMixer.play_song c8_state (some [(3, 3)])).2.is_crossfading = false) := by
  simp [AudioMixer.play_song, c8_state]

/-- C8 amended: after a successful `play_song` the current buffer is the
newly loaded one, the read cursor is 0 and `is_playing` is set, but the
staged next buffer and the crossfading flag are left unchanged from the
prior state (not cleared). -/
theorem play_song_effect (s : AudioMixerState) (audio : List Frame) :
    (AudioMixer.play_song s (some audio)).1 = true ∧
    (AudioMixer.play_song s (some audio)).2.current_audio = some audio ∧
    (AudioMixer.play_song s (some audio)).2.current_position = 0 ∧
    (AudioMixer.play_song s (some audio)).2.is_playing = true ∧
    (AudioMixer.play_song s (some audio)).2.next_audio = s.next_audio ∧
    (AudioMixer.play_song s (some audio)).2.is_crossfading = s.is_crossfading :=
  ⟨rfl, rfl, rfl, rfl, rfl, rfl⟩

/-! ## Helper lemmas: render path -/

/-- Zipping two replicated lists of the same length replicates the combined
element. -/
theorem zipWith_replicate_same {α β γ : Type} (f : α → β → γ) :
    ∀ (n : ℕ) (a : α) (b : β),
      List.zipWith f (List.replicate n a) (List.replicate n b) =
        List.replicate n (f a b) := by
  intro n
  induction n with
  | zero => intro a b; rfl
  | succ m ih => intro a b; simp [List.replicate_succ, ih]

/-- A guarded chunk read always yields exactly the requested number of
frames. -/
theorem chunk_of_length (buf : Option (List Frame)) (pos samples_needed : ℕ) :
    (AudioMixer.chunk_of buf pos samples_needed).length = samples_needed := by
  cases buf with
  | none => simp [AudioMixer.chunk_of]
  | some b =>
    simp only [AudioMixer.chunk_of]
    split
    · simp only [List.length_take, List.length_drop]
      omega
    · simp

/-- A mixed sub-chunk has exactly the requested number of frames. -/
theorem mix_chunk_length (s : AudioMixerState) (samples_needed : ℕ) :
    (AudioMixer.mix_chunk s samples_needed).length = samples_needed := by
  simp [AudioMixer.mix_chunk, chunk_of_length]

/-- The crossfade loop fills exactly `remaining` frames, with any fuel. -/
theorem crossfade_loop_length :
    ∀ (fuel : ℕ) (s : AudioMixerState) (remaining : ℕ),
      (AudioMixer.crossfade_loop fuel s remaining).1.length = remaining := by
  intro fuel
  induction fuel with
  | zero => intro s r; simp [AudioMixer.crossfade_loop]
  | succ n ih =>
    intro s r
    have hle : min r (s.crossfade_samples - s.crossfade_position) ≤ r := min_le_left _ _
    simp only [AudioMixer.crossfade_loop]
    split
    · simp [*]
    · split
      · simp
      · split
        · simp only [List.length_append, List.length_replicate, mix_chunk_length]
          omega
        · simp only [List.length_append, mix_chunk_length, ih]
          omega

/-- The pre-limiter render stage fills exactly the requested frame count in
every state. -/
theorem generate_chunk_pre_length (s : AudioMixerState) (frame_count : ℕ) :
    (AudioMixer.generate_audio_chunk_pre s frame_count).1.length = frame_count := by
  unfold AudioMixer.generate_audio_chunk_pre
  split
  · simp [crossfade_loop_length]
  cases hcur : s.current_audio with
  | none => simp
  | some cur =>
    simp only
    split
    · simp only [List.length_map, List.length_take, List.length_drop]
      omega
    · simp only [List.length_map, List.length_append, List.length_replicate,
        List.length_drop]
      omega

/-- Scaling the zero frame gives the zero frame. -/
theorem scaleFrame_zero (volume : ℚ) :
    AudioMixer.scaleFrame volume ((0 : ℚ), (0 : ℚ)) = ((0 : ℚ), (0 : ℚ)) := by
  simp [AudioMixer.scaleFrame]

/-- The soft limiter maps silence to silence. -/
theorem soft_limit_zero : AudioMixer.soft_limit 0 = 0 := by
  simp [AudioMixer.soft_limit, Real.tanh_zero]

/-- The limiter maps the zero frame to the zero frame. -/
theorem limitFrame_zero :
    AudioMixer.limitFrame ((0 : ℚ), (0 : ℚ)) = ((0 : ℝ), (0 : ℝ)) := by
  simp [AudioMixer.limitFrame, soft_limit_zero]

/-- C1: for every engine state and every requested frame count `n ≥ 1`, one
render invocation returns exactly `n` stereo frames (it is a total
function, so it never fails), and when playback is stopped or no current
buffer is loaded all `n` frames are zero. -/
theorem render_frame_contract (s : AudioMixerState) (frame_count : ℕ)
    (h : 1 ≤ frame_count) :
    (AudioMixer.render s frame_count).1.length = frame_count ∧
    ((s.is_playing = false ∨ s.current_audio = none) →
      (AudioMixer.render s frame_count).1 =
        List.replicate frame_count ((0 : ℝ), (0 : ℝ))) := by
  unfold AudioMixer.render
  by_cases hguard : s.is_playing = false ∨ s.current_audio = none
  · rw [if_pos hguard]
    exact ⟨by simp, fun _ => rfl⟩
  · rw [if_neg hguard]
    refine ⟨?_, fun hcontra => absurd hcontra hguard⟩
    simp [generate_chunk_pre_length]

/-- C1 witness: the freshly initialized engine (not playing, no buffer)
rendered for 4 frames returns exactly 4 zero frames. -/
theorem render_frame_contract_witness :
    (AudioMixer.render AudioMixer.init 4).1.length = 4 ∧
    ((AudioMixer.init.is_playing = false ∨ AudioMixer.init.current_audio = none) →
      (AudioMixer.render AudioMixer.init 4).1 =
        List.replicate 4 ((0 : ℝ), (0 : ℝ))) :=
  render_frame_contract AudioMixer.init 4 (by norm_num)

/-- `getD` on a replicated list whose element is the default returns that
element at every index. -/
theorem getD_replicate_self {α : Type} (a : α) :
    ∀ (n k : ℕ), (List.replicate n a).getD k a = a := by
  intro n
  induction n with
  | zero => intro k; rfl
  | succ m ih =>
    intro k
    cases k with
    | zero => rfl
    | succ k' => simp only [List.replicate_succ, List.getD_cons_succ]; exact ih k'

/-- When the crossfade window still has room but no more than the frames
remaining to fill, the loop runs exactly one sub-chunk of size
`crossfade_samples - crossfade_position`, swaps the buffers, and leaves the
rest of the output zero. -/
theorem crossfade_loop_complete (fuel : ℕ) (s : AudioMixerState) (remaining : ℕ)
    (hr : remaining ≠ 0)
    (hlt : s.crossfade_position < s.crossfade_samples)
    (hc : s.crossfade_samples - s.crossfade_position ≤ remaining) :
    AudioMixer.crossfade_loop (fuel + 1) s remaining =
      (AudioMixer.mix_chunk s (s.crossfade_samples - s.crossfade_position) ++
        List.replicate (remaining - (s.crossfade_samples - s.crossfade_position))
          ((0 : ℚ), (0 : ℚ)),
       AudioMixer.swap_state s (s.crossfade_samples - s.crossfade_position)) := by
  simp only [AudioMixer.crossfade_loop]
  rw [if_neg hr]
  have hmin : min remaining (s.crossfade_samples - s.crossfade_position) =
      s.crossfade_samples - s.crossfade_position := min_eq_right hc
  rw [hmin]
  rw [if_neg (by omega : ¬ (s.crossfade_samples - s.crossfade_position = 0))]
  rw [if_pos (by omega :
    s.crossfade_samples ≤ s.crossfade_position + (s.crossfade_samples - s.crossfade_position))]

/-- C10: in the Playing state with enough samples remaining, rendering
returns a view of the current buffer, so applying the master volume scales
the stored slice `[cursor, cursor + frameCount)` in place: after the call
the stored buffer equals the old one with exactly that slice multiplied by
the master volume (and is therefore actually changed whenever that scaled
slice differs), and the cursor advances by `frameCount`. -/
theorem render_scales_current_slice (s : AudioMixerState) (cur : List Frame)
    (frame_count : ℕ)
    (hplay : s.is_playing = true) (hcur : s.current_audio = some cur)
    (hcf : s.is_crossfading = false)
    (hroom : s.current_position + frame_count < cur.length) :
    (AudioMixer.render s frame_count).2.current_audio =
      some (cur.take s.current_position ++
        ((cur.drop s.current_position).take frame_count).map
          (AudioMixer.scaleFrame s.master_volume) ++
        cur.drop (s.current_position + frame_count)) ∧
    ((cur.take s.current_position ++
        ((cur.drop s.current_position).take frame_count).map
          (AudioMixer.scaleFrame s.master_volume) ++
        cur.drop (s.current_position + frame_count)) ≠ cur →
      (AudioMixer.render s frame_count).2.current_audio ≠ some cur) ∧
    (AudioMixer.render s frame_count).2.current_position =
      s.current_position + frame_count := by
  have hguard : ¬ (s.is_playing = false ∨ s.current_audio = none) := by
    simp [hplay, hcur]
  have hncf : ¬ (s.is_crossfading = true) := by simp [hcf]
  unfold AudioMixer.render
  rw [if_neg hguard]
  unfold AudioMixer.generate_audio_chunk_pre
  rw [if_neg hncf, hcur]
  dsimp only
  rw [if_pos hroom]
  refine ⟨rfl, ?_, rfl⟩
  intro hne heq
  exact hne (Option.some.inj heq)

/-- C10 witness: rendering 2 frames of the concrete three-frame buffer at
master volume `0.8` leaves the stored buffer with its first two frames
scaled to `0.8` and `1.6` — in particular not equal to the original — and
the cursor at 2. -/
theorem render_scales_current_slice_witness :
    (AudioMixer.render c10_state 2).2.current_audio =
      some (c10_buf.take 0 ++
        ((c10_buf.drop 0).take 2).map (AudioMixer.scaleFrame (4/5)) ++
        c10_buf.drop (0 + 2)) ∧
    (AudioMixer.render c10_state 2).2.current_audio ≠ some c10_buf ∧
    (AudioMixer.render c10_state 2).2.current_position = 0 + 2 := by
  have h := render_scales_current_slice c10_state c10_buf 2 rfl rfl rfl
    (by norm_num [c10_state, c10_buf, AudioMixer.init])
  refine ⟨h.1, h.2.1 ?_, h.2.2⟩
  norm_num [c10_buf, AudioMixer.scaleFrame, c10_state, AudioMixer.init]

/-- C9: when the crossfade window completes partway through a render call
(fewer window samples remain than requested frames), the call produces the
final sub-chunk of size `crossfadeSamples - crossfadePosition` and leaves
every later frame of the output block zero (it does not continue with audio
from the promoted buffer), and afterwards the read cursor equals that final
sub-chunk size (not the total consumed from the next buffer during the
whole crossfade, which is the full window), the state is no longer
crossfading, the promoted current buffer is the formerly staged one and the
staged slot is cleared. -/
theorem render_crossfade_completion_midcall (s : AudioMixerState) (cur : List Frame)
    (frame_count : ℕ)
    (hplay : s.is_playing = true) (hcur : s.current_audio = some cur)
    (hcf : s.is_crossfading = true)
    (hlt : s.crossfade_position < s.crossfade_samples)
    (hmid : s.crossfade_samples - s.crossfade_position < frame_count) :
    (AudioMixer.render s frame_count).1.length = frame_count ∧
    (∀ k, s.crossfade_samples - s.crossfade_position ≤ k →
      (AudioMixer.render s frame_count).1.getD k ((0 : ℝ), (0 : ℝ)) = ((0 : ℝ), (0 : ℝ))) ∧
    (AudioMixer.render s frame_count).2.current_position =
      s.crossfade_samples - s.crossfade_position ∧
    (AudioMixer.render s frame_count).2.is_crossfading = false ∧
    (AudioMixer.render s frame_count).2.current_audio = s.next_audio ∧
    (AudioMixer.render s frame_count).2.next_audio = none := by
  have hguard : ¬ (s.is_playing = false ∨ s.current_audio = none) := by
    simp [hplay, hcur]
  obtain ⟨m, rfl⟩ : ∃ m, frame_count = m + 1 := ⟨frame_count - 1, by omega⟩
  have hloop := crossfade_loop_complete m s (m + 1) (by omega) hlt (by omega)
  unfold AudioMixer.render
  rw [if_neg hguard]
  unfold AudioMixer.generate_audio_chunk_pre
  rw [if_pos hcf, hloop]
  dsimp only
  rw [List.map_append, List.map_append, List.map_replicate, List.map_replicate,
    scaleFrame_zero, limitFrame_zero]
  have hlenA : (((AudioMixer.mix_chunk s (s.crossfade_samples - s.crossfade_position)).map
      (AudioMixer.scaleFrame s.master_volume)).map AudioMixer.limitFrame).length =
      s.crossfade_samples - s.crossfade_position := by
    simp [mix_chunk_length]
  refine ⟨?_, ?_, rfl, rfl, rfl, rfl⟩
  · simp only [List.length_append, List.length_replicate, hlenA]
    omega
  · intro k hk
    rw [List.getD_append_right _ _ _ _ (by omega : (((AudioMixer.mix_chunk s
        (s.crossfade_samples - s.crossfade_position)).map
        (AudioMixer.scaleFrame s.master_volume)).map AudioMixer.limitFrame).length ≤ k)]
    exact getD_replicate_self _ _ _

/-- C9 witness: rendering 5 frames of the mid-crossfade state with 2 window
samples left yields a 5-frame block whose frames from index 2 on are zero,
cursor 2, crossfading cleared, and the staged buffer promoted. -/
theorem render_crossfade_completion_midcall_witness :
    (AudioMixer.render c9_state 5).1.length = 5 ∧
    (∀ k, c9_state.crossfade_samples - c9_state.crossfade_position ≤ k →
      (AudioMixer.render c9_state 5).1.getD k ((0 : ℝ), (0 : ℝ)) = ((0 : ℝ), (0 : ℝ))) ∧
    (AudioMixer.render c9_state 5).2.current_position =
      c9_state.crossfade_samples - c9_state.crossfade_position ∧
    (AudioMixer.render c9_state 5).2.is_crossfading = false ∧
    (AudioMixer.render c9_state 5).2.current_audio = c9_state.next_audio ∧
    (AudioMixer.render c9_state 5).2.next_audio = none :=
  render_crossfade_completion_midcall c9_state (List.replicate 10 ((1:ℚ), (1:ℚ))) 5
    rfl rfl rfl (by norm_num [c9_state, AudioMixer.init])
    (by norm_num [c9_state, AudioMixer.init])

/-- Numeric bound: `tanh(0.76) > 10/19`, via `exp(0.19) ≥ 1.19` and hence
`exp(1.52) ≥ 1.19^8 > 29/9`. -/
theorem tanh_nineteen_twentyfifths_gt : (10 : ℝ)/19 < Real.tanh (19/25) := by
  have h1 : (119/100 : ℝ) ≤ Real.exp (19/100) := by
    have := Real.add_one_le_exp (19/100 : ℝ)
    linarith
  have h4 : Real.exp (19/25) = Real.exp (19/100) ^ 4 := by
    rw [show (19/25 : ℝ) = (4 : ℕ) * (19/100) by norm_num, Real.exp_nat_mul]
  have hE : ((119 : ℝ)/100) ^ 4 ≤ Real.exp (19/25) := by
    rw [h4]
    exact pow_le_pow_left₀ (by norm_num) h1 4
  set E := Real.exp (19/25) with hEdef
  have hEpos : (0 : ℝ) < E := Real.exp_pos _
  have htanh : Real.tanh (19/25) = (E - E⁻¹) / (E + E⁻¹) := by
    rw [Real.tanh_eq_sinh_div_cosh, Real.sinh_eq, Real.cosh_eq, Real.exp_neg, ← hEdef,
      div_div_div_comm]
    norm_num
  rw [htanh, lt_div_iff₀ (by positivity)]
  have hinv : E * E⁻¹ = 1 := mul_inv_cancel₀ (ne_of_gt hEpos)
  have hupos : (0 : ℝ) < E⁻¹ := inv_pos.mpr hEpos
  have hE2 : (29 : ℝ) < 9 * E ^ 2 := by nlinarith [hE, hEpos]
  have hu : (29 : ℝ) * E⁻¹ < 9 * E := by nlinarith [hE2, hinv, hEpos, hupos]
  linarith

/-- The single mixed sub-chunk of the scenario: the whole 100-frame chunk
is weighted with the fade progress `0/100 = 0` computed once at the chunk
start, so it is the all-ones current signal unchanged. -/
theorem c6_mix_chunk_eval :
    AudioMixer.mix_chunk c6_state1 100 = List.replicate 100 ((1:ℚ), (1:ℚ)) := by
  unfold AudioMixer.mix_chunk AudioMixer.chunk_of
  rw [show c6_state1.current_audio = some (List.replicate 200 ((1:ℚ), (1:ℚ))) from rfl,
    show c6_state1.next_audio = some (List.replicate 150 ((0:ℚ), (0:ℚ))) from rfl,
    show c6_state1.current_position = 0 from rfl,
    show c6_state1.crossfade_position = 0 from rfl,
    show c6_state1.crossfade_samples = 100 from rfl]
  dsimp only
  rw [if_pos (show 0 + 100 ≤ (List.replicate 200 ((1:ℚ), (1:ℚ))).length by
      rw [List.length_replicate]; omega),
    if_pos (show 0 + 100 ≤ (List.replicate 150 ((0:ℚ), (0:ℚ))).length by
      rw [List.length_replicate]; omega)]
  rw [List.drop_zero, List.drop_zero, List.take_replicate, List.take_replicate]
  norm_num [zipWith_replicate_same]

/-- Full evaluation of the scenario render call: one 100-frame crossfading
render returns 100 frames that are all `softLimit(1 * 0.8)`, and the state
afterwards has the former next buffer promoted, the staged slot cleared,
the crossfade over, and the cursor at 100. -/
theorem c6_render_eval :
    AudioMixer.render c6_state1 100 =
      (List.replicate 100 (AudioMixer.limitFrame ((4/5 : ℚ), (4/5 : ℚ))),
       AudioMixer.swap_state c6_state1 100) := by
  have hguard : ¬ (c6_state1.is_playing = false ∨ c6_state1.current_audio = none) := by
    simp [c6_state1, c6_state0, AudioMixer.init, AudioMixer.start_crossfade]
  have hloop := crossfade_loop_complete 99 c6_state1 100
    (by norm_num)
    (by rw [show c6_state1.crossfade_position = 0 from rfl,
      show c6_state1.crossfade_samples = 100 from rfl]; norm_num)
    (by rw [show c6_state1.crossfade_position = 0 from rfl,
      show c6_state1.crossfade_samples = 100 from rfl])
  rw [show c6_state1.crossfade_samples - c6_state1.crossfade_position = 100 from rfl]
    at hloop
  norm_num at hloop
  simp only [AudioMixer.render, AudioMixer.generate_audio_chunk_pre]
  rw [if_neg hguard, if_pos (show c6_state1.is_crossfading = true from rfl), hloop,
    c6_mix_chunk_eval]
  rw [show c6_state1.master_volume = (4/5 : ℚ) from rfl]
  rw [List.map_replicate, List.map_replicate]
  norm_num [AudioMixer.scaleFrame]

/-- `getD` on a replicated list below its length returns the replicated
element. -/
theorem getD_replicate_of_lt {α : Type} (a d : α) {n k : ℕ} (h : k < n) :
    (List.replicate n a).getD k d = a := by
  rw [List.getD_eq_getElem?_getD, List.getElem?_replicate_of_lt h]
  rfl

/-- The scenario's per-sample limiter value: `softLimit(0.8) =
tanh(0.76) * 0.95`. -/
theorem c6_soft_limit_eval :
    AudioMixer.soft_limit (4/5) = Real.tanh (19/25) * (19/20) := by
  unfold AudioMixer.soft_limit
  norm_num

/-- C6 counterexample: in the spec's scenario (all-ones current, all-zero
next, window 100) the output sample at local position 50 of the 100-frame
crossfading render is NOT `0.5`: the fade weights are computed once per
rendered sub-chunk, so the whole 100-frame chunk is weighted `(1, 0)`, and
master volume `0.8` plus the tanh soft limiter are applied, giving
`tanh(0.76)*0.95 ≈ 0.609 > 0.5`. -/
theorem crossfade_scenario_sample_not_half :
    ((AudioMixer.render c6_state1 100).1.getD 50 ((0:ℝ), (0:ℝ))).1 ≠ 1/2 := by
  rw [c6_render_eval]
  rw [show ((List.replicate 100 (AudioMixer.limitFrame ((4/5 : ℚ), (4/5 : ℚ))),
      AudioMixer.swap_state c6_state1 100).1) =
      List.replicate 100 (AudioMixer.limitFrame ((4/5 : ℚ), (4/5 : ℚ))) from rfl]
  rw [getD_replicate_of_lt _ _ (by norm_num : (50:ℕ) < 100)]
  rw [show (AudioMixer.limitFrame ((4/5 : ℚ), (4/5 : ℚ))).1 =
      AudioMixer.soft_limit (4/5) from rfl, c6_soft_limit_eval]
  have h := tanh_nineteen_twentyfifths_gt
  intro heq
  linarith

/-- C6 amended: in the scenario, after the crossfade is started and exactly
100 samples are rendered in one crossfading call, the output sample at
local position 50 equals `tanh(0.8*0.95)*0.95` (the whole chunk carries the
fade weights `(1, 0)` computed at the chunk start, then master volume `0.8`
and the soft limiter apply), not `0.5`; and after sample 100 the engine is
no longer crossfading, the current buffer is the former next buffer, the
staged slot is cleared, and the cursor is 100. -/
theorem crossfade_scenario_behavior :
    (AudioMixer.render c6_state1 100).1.getD 50 ((0:ℝ), (0:ℝ)) =
      (Real.tanh (19/25) * (19/20), Real.tanh (19/25) * (19/20)) ∧
    (AudioMixer.render c6_state1 100).2.is_crossfading = false ∧
    (AudioMixer.render c6_state1 100).2.current_audio = c6_state0.next_audio ∧
    (AudioMixer.render c6_state1 100).2.next_audio = none ∧
    (AudioMixer.render c6_state1 100).2.current_position = 100 := by
  rw [c6_render_eval]
  refine ⟨?_, rfl, rfl, rfl, rfl⟩
  rw [show ((List.replicate 100 (AudioMixer.limitFrame ((4/5 : ℚ), (4/5 : ℚ))),
      AudioMixer.swap_state c6_state1 100).1) =
      List.replicate 100 (AudioMixer.limitFrame ((4/5 : ℚ), (4/5 : ℚ))) from rfl]
  rw [getD_replicate_of_lt _ _ (by norm_num : (50:ℕ) < 100)]
  rw [show AudioMixer.limitFrame ((4/5 : ℚ), (4/5 : ℚ)) =
      (AudioMixer.soft_limit (4/5), AudioMixer.soft_limit (4/5)) from rfl]
  rw [c6_soft_limit_eval]
